import Mathlib

/-!
# Nexus: template registry and configuration store

A shallow embedding of `templateManager.cpp` (template loading, shape
normalisation, built-in defaults) and of `configurationModel.cpp` (the
record store over the `configurations` table), followed by the properties
established about them.

Conventions of the embedding:
* `QMap` and `QJsonObject` are key-sorted association lists, as in Qt;
* the member state `m_templates` is passed explicitly;
* the file system and the JSON parser are parameters (`Env`);
* the SQL table is a list of records in rowid order (see `Database`).
-/

namespace Nexus

/-! ## JSON values -/

/-- A JSON value as held by `QJsonValue`. A number is kept as a decimal
mantissa and exponent (`mantissa * 10 ^ exponent`); the code never inspects
parsed numbers and only builds integer ones. `undefined` is what
`QJsonObject::value` returns for a missing key. -/
inductive QJsonValue where
  | null
  | bool (b : Bool)
  | double (mantissa : Int) (exponent : Int)
  | string (s : String)
  | array (items : List QJsonValue)
  | object (members : List (String × QJsonValue))
  | undefined

/-- The key-sorted map `QMap<QString, T>`, as its list of entries. -/
abbrev QMap (α : Type) := List (String × α)

/-- A JSON object: `QJsonObject`, a key-sorted map to JSON values. -/
abbrev QJsonObject := QMap QJsonValue

/-- The UTF-16 code units of a character, the units a `QString` stores. -/
def utf16 (c : Char) : List Nat :=
  if c.toNat < 0x10000 then [c.toNat]
  else [0xD800 + (c.toNat - 0x10000) / 0x400, 0xDC00 + (c.toNat - 0x10000) % 0x400]

/-- The UTF-16 code units of a string. -/
def codeUnits (s : String) : List Nat := s.data.flatMap utf16

/-- Lexicographic comparison of code unit sequences. -/
def unitsLt : List Nat → List Nat → Bool
  | _, [] => false
  | [], _ :: _ => true
  | a :: as, b :: bs => decide (a < b) || (decide (a = b) && unitsLt as bs)

/-- The key order of `QMap<QString, T>`: `operator<` of `QString`, which
compares code units lexicographically. -/
def keyLess (a b : String) : Bool := unitsLt (codeUnits a) (codeUnits b)

/-- Insertion `QMap::insert(key, value)`: replaces the value of an existing key,
otherwise places the entry at its sorted position. -/
def QMap.insert {α : Type} : QMap α → String → α → QMap α
  | [], k, v => [(k, v)]
  | (k0, v0) :: rest, k, v =>
    if keyLess k k0 then (k, v) :: (k0, v0) :: rest
    else if k = k0 then (k, v) :: rest
    else (k0, v0) :: QMap.insert rest k v

/-- The number of entries, `QMap::size()`. -/
def QMap.size {α : Type} (m : QMap α) : Nat := m.length

/-- The keys in map order, `QMap::keys()`. -/
def QMap.keys {α : Type} (m : QMap α) : List String := m.map Prod.fst

/-- Membership test `QMap::contains(key)` / `QJsonObject::contains(key)`. -/
def QMap.contains {α : Type} (m : QMap α) (k : String) : Bool :=
  m.any (fun e => decide (e.1 = k))

/-- Lookup `QMap::value(key)`, `none` standing for the default-constructed value. -/
def QMap.find {α : Type} (m : QMap α) (k : String) : Option α :=
  (List.find? (fun e => decide (e.1 = k)) m).map Prod.snd

/-- Member access `QJsonObject::value(key)`: `undefined` when the key is missing. -/
def QJsonObject.value (o : QJsonObject) (k : String) : QJsonValue :=
  (QMap.find o k).getD QJsonValue.undefined

namespace QJsonValue

/-- Test `QJsonValue::isArray()`. -/
def isArray : QJsonValue → Bool
  | array _ => true
  | _ => false

/-- Test `QJsonValue::isObject()`. -/
def isObject : QJsonValue → Bool
  | object _ => true
  | _ => false

/-- Conversion `QJsonValue::toString(defaultValue)`: the string held, else the default. -/
def toStringOr : QJsonValue → String → String
  | string s, _ => s
  | _, d => d

/-- Conversion `QJsonValue::toString()`: the string held, else the empty string. -/
def toQString (v : QJsonValue) : String := v.toStringOr ""

/-- Conversion `QJsonValue::toArray()`: the items held, else an empty array. -/
def toArray : QJsonValue → List QJsonValue
  | array xs => xs
  | _ => []

/-- Conversion `QJsonValue::toObject()`: the members held, else an empty object. -/
def toObject : QJsonValue → QJsonObject
  | object ms => ms
  | _ => []

/-- Conversion `QJsonValue::toBool()`: the boolean held, else `false`. -/
def toBool : QJsonValue → Bool
  | bool b => b
  | _ => false

/-- An integer stored into a JSON value, as in `obj["min"] = 0`. -/
def ofInt (n : Int) : QJsonValue := double n 0

end QJsonValue

/-! ## TemplateManager -/

/-- What `loadFromPath` and `loadTemplates` obtain from outside the program:
`readAll path` is the text of the file when `QFile::open` succeeds on it,
`fromJson raw` the document when `QJsonDocument::fromJson` reports `NoError`,
and the two path functions are `QDir::current().filePath` and
`QDir(writableLocation(AppDataLocation)).filePath`. -/
structure Env where
  readAll : String → Option String
  fromJson : String → Option QJsonValue
  currentFilePath : String → String
  appDataFilePath : String → String

/-- The registry state, the member `m_templates`. -/
abbrev Templates := QMap QJsonObject

/-- The name chosen for an array entry in `loadFromPath`: `type`, then `id`, then
`name`, then `template_%1` with the current size of the mapping plus one. -/
def entryName (m_templates : Templates) (obj : QJsonObject) : String :=
  let name := (obj.value "type").toQString
  let name := if name = "" then (obj.value "id").toQString else name
  let name := if name = "" then (obj.value "name").toQString else name
  let name := if name = "" then "template_" ++ toString (m_templates.size + 1) else name
  name

/-- The loop `for (const QJsonValue &val : array)` shared by the `templates`
branch and the top-level array branch of `loadFromPath`. -/
def loadArray : Templates → List QJsonValue → Templates
  | m_templates, [] => m_templates
  | m_templates, val :: rest =>
    if !val.isObject then loadArray m_templates rest
    else
      let obj := val.toObject
      loadArray (m_templates.insert (entryName m_templates obj) obj) rest

/-- The loop `for (auto it = root.begin(); it != root.end(); ++it)` of the
key-value branch of `loadFromPath`. -/
def loadMap : Templates → List (String × QJsonValue) → Templates
  | m_templates, [] => m_templates
  | m_templates, (name, v) :: rest =>
    if !v.isObject then loadMap m_templates rest
    else loadMap (m_templates.insert name v.toObject) rest

/-- The names written by the `qDebug() << "Loaded template ..." << name` line of
the array loop, one per insertion, in the order of the insertions. -/
def loadArrayLog : Templates → List QJsonValue → List String
  | _, [] => []
  | m_templates, val :: rest =>
    if !val.isObject then loadArrayLog m_templates rest
    else
      let obj := val.toObject
      let name := entryName m_templates obj
      name :: loadArrayLog (m_templates.insert name obj) rest

/-- The calls `m_templates.insert(name, obj)` made by the array loop, in order:
the name and the object of each insertion. -/
def loadArrayEntries : Templates → List QJsonValue → List (String × QJsonObject)
  | _, [] => []
  | m_templates, val :: rest =>
    if !val.isObject then loadArrayEntries m_templates rest
    else
      let obj := val.toObject
      let name := entryName m_templates obj
      (name, obj) :: loadArrayEntries (m_templates.insert name obj) rest

/-- The part of `loadFromPath` after a successful parse (from
`m_templates.clear()` on): the return value and the new `m_templates`. -/
def loadFromDocument (doc : QJsonValue) : Bool × Templates :=
  let m_templates : Templates := []
  match doc with
  | QJsonValue.object root =>
    if QMap.contains root "fields" && (QJsonObject.value root "fields").isArray then
      let templateName := (QJsonObject.value root "title").toStringOr "default"
      let templateName := if templateName = "" then "default" else templateName
      (true, m_templates.insert templateName root)
    else if QMap.contains root "templates" && (QJsonObject.value root "templates").isArray then
      (true, loadArray m_templates (QJsonObject.value root "templates").toArray)
    else
      (true, loadMap m_templates root)
  | QJsonValue.array array => (true, loadArray m_templates array)
  | _ => (false, m_templates)

/-- The method `TemplateManager::loadFromPath`: the return value and the new
`m_templates`. -/
def loadFromPath (env : Env) (path : String) (m_templates : Templates) : Bool × Templates :=
  match env.readAll path with
  | none => (false, m_templates)
  | some raw =>
    match env.fromJson raw with
    | none => (false, m_templates)
    | some doc => loadFromDocument doc

/-- The field `param` of the default template `simple`. -/
def paramField : QJsonObject :=
  let o : QJsonObject := []
  let o := o.insert "id" (QJsonValue.string "param")
  let o := o.insert "label" (QJsonValue.string "Paramètre")
  let o := o.insert "type" (QJsonValue.string "int")
  let o := o.insert "default" (QJsonValue.ofInt 0)
  let o := o.insert "min" (QJsonValue.ofInt 0)
  let o := o.insert "max" (QJsonValue.ofInt 100)
  let o := o.insert "step" (QJsonValue.ofInt 1)
  let o := o.insert "required" (QJsonValue.bool true)
  o

/-- The default template `simple`. -/
def simpleTemplate : QJsonObject :=
  let o : QJsonObject := []
  let o := o.insert "type" (QJsonValue.string "simple")
  let o := o.insert "version" (QJsonValue.ofInt 1)
  let o := o.insert "label" (QJsonValue.string "Configuration Simple")
  let simpleFields : List QJsonValue := [] ++ [QJsonValue.object paramField]
  let o := o.insert "fields" (QJsonValue.array simpleFields)
  o

/-- The field `host` of the default template `advanced`. -/
def hostField : QJsonObject :=
  let o : QJsonObject := []
  let o := o.insert "id" (QJsonValue.string "host")
  let o := o.insert "label" (QJsonValue.string "Hôte")
  let o := o.insert "type" (QJsonValue.string "string")
  let o := o.insert "default" (QJsonValue.string "localhost")
  let o := o.insert "required" (QJsonValue.bool true)
  o

/-- The field `port` of the default template `advanced`. -/
def portField : QJsonObject :=
  let o : QJsonObject := []
  let o := o.insert "id" (QJsonValue.string "port")
  let o := o.insert "label" (QJsonValue.string "Port")
  let o := o.insert "type" (QJsonValue.string "int")
  let o := o.insert "default" (QJsonValue.ofInt 8080)
  let o := o.insert "min" (QJsonValue.ofInt 1)
  let o := o.insert "max" (QJsonValue.ofInt 65535)
  let o := o.insert "required" (QJsonValue.bool true)
  o

/-- The field `timeout` of the default template `advanced`. -/
def timeoutField : QJsonObject :=
  let o : QJsonObject := []
  let o := o.insert "id" (QJsonValue.string "timeout")
  let o := o.insert "label" (QJsonValue.string "Délai d\x27expiration (ms)")
  let o := o.insert "type" (QJsonValue.string "int")
  let o := o.insert "default" (QJsonValue.ofInt 5000)
  let o := o.insert "min" (QJsonValue.ofInt 100)
  let o := o.insert "max" (QJsonValue.ofInt 60000)
  o

/-- The default template `advanced`. -/
def advancedTemplate : QJsonObject :=
  let o : QJsonObject := []
  let o := o.insert "type" (QJsonValue.string "advanced")
  let o := o.insert "version" (QJsonValue.ofInt 1)
  let o := o.insert "label" (QJsonValue.string "Configuration Avancée")
  let advancedFields : List QJsonValue := []
  let advancedFields := advancedFields ++ [QJsonValue.object hostField]
  let advancedFields := advancedFields ++ [QJsonValue.object portField]
  let advancedFields := advancedFields ++ [QJsonValue.object timeoutField]
  let o := o.insert "fields" (QJsonValue.array advancedFields)
  o

/-- The method `TemplateManager::createDefaultTemplates`: the new `m_templates`. -/
def createDefaultTemplates (_m_templates : Templates) : Templates :=
  let m_templates : Templates := []
  let m_templates := m_templates.insert "simple" simpleTemplate
  let m_templates := m_templates.insert "advanced" advancedTemplate
  m_templates

/-- The return point at which `loadTemplates` finished. -/
inductive LoadOrigin where
  | qtResources
  | applicationDirectory
  | appDataDirectory
  | defaults
  deriving DecidableEq

/-- The method `TemplateManager::loadTemplates`: the return point taken and the
new `m_templates`. Creating the application data directory changes no file
text, so `env` is the same for the three attempts. -/
def loadTemplates (env : Env) (m_templates : Templates) : LoadOrigin × Templates :=
  let qrcPath := ":/templates.json"
  let r1 := loadFromPath env qrcPath m_templates
  if r1.1 then (LoadOrigin.qtResources, r1.2)
  else
    let appDirPath := env.currentFilePath "templates.json"
    let r2 := loadFromPath env appDirPath r1.2
    if r2.1 then (LoadOrigin.applicationDirectory, r2.2)
    else
      let appDataPath := env.appDataFilePath "templates.json"
      let r3 := loadFromPath env appDataPath r2.2
      if r3.1 then (LoadOrigin.appDataDirectory, r3.2)
      else (LoadOrigin.defaults, createDefaultTemplates r3.2)

/-- The method `TemplateManager::templates`. -/
def templates (m_templates : Templates) : List String := m_templates.keys

/-! ## ConfigurationModel

The table `configurations` is held by SQLite and reached through
`QSqlTableModel` with the edit strategy `OnFieldChange`. The embedding keeps
the states in which no edit is pending (every successful operation ends with
`select()`, which empties the edit cache) and takes the rows of a `select()` as
fetched in full. -/

/-- A row of the table `configurations`. A `NULL` text reads as the empty string. -/
structure Record where
  id : Int
  type : String
  version : Int
  name : String
  data : String
  created_at : Option String
  deriving DecidableEq

/-- The SQLite database behind the model: the rows of `configurations` in rowid
order, the `sqlite_sequence` entry of the table (the largest id handed out so
far), whether the connection accepts statements, and the value the engine
stores in `created_at` on the next insert. -/
structure Database where
  rows : List Record
  seq : Int
  isOpen : Bool
  stamp : Option String
  deriving DecidableEq

/-- The largest id present in the table, `0` for an empty table. -/
def maxId : List Record → Int
  | [] => 0
  | r :: rest => max r.id (maxId rest)

/-- The id `AUTOINCREMENT` hands out next: one more than the largest id ever used. -/
def Database.nextId (db : Database) : Int := max (maxId db.rows) db.seq + 1

/-- The row an `INSERT` of the four given columns creates. -/
def Database.newRecord (db : Database) (type : String) (version : Int) (name data : String) :
    Record :=
  { id := db.nextId, type := type, version := version, name := name, data := data,
    created_at := db.stamp }

/-- Statement `INSERT INTO configurations (type, version, name, data) ...`: rejected
on a closed connection or when the id space of a 64-bit rowid is used up. -/
def Database.insertRow (db : Database) (type : String) (version : Int) (name data : String) :
    Option Database :=
  if db.isOpen && decide (db.nextId ≤ 9223372036854775807) then
    some { db with rows := db.rows ++ [db.newRecord type version name data], seq := db.nextId }
  else none

/-- Statement `UPDATE configurations SET ... WHERE id = key`, all columns taken from
`record`. -/
def Database.updateRow (db : Database) (key : Int) (record : Record) : Option Database :=
  if db.isOpen then
    some { db with rows := db.rows.map (fun r => if r.id = key then record else r) }
  else none

/-- Statement `DELETE FROM configurations WHERE id = key`. -/
def Database.deleteRow (db : Database) (key : Int) : Option Database :=
  if db.isOpen then
    some { db with rows := db.rows.filter (fun r => decide (r.id ≠ key)) }
  else none

/-- The meaning the SQL engine gives to a filter expression (the text after
`WHERE`): a row predicate, or `none` when the engine rejects the expression. -/
structure SqlEngine where
  evalWhere : String → Option (Record → Bool)

/-- The rows of the table a filter expression keeps, all of them for the empty
filter; `none` when the engine rejects the expression. -/
def Database.matching (e : SqlEngine) (db : Database) (filter : String) : Option (List Record) :=
  if filter = "" then some db.rows
  else
    match e.evalWhere filter with
    | some p => some (db.rows.filter p)
    | none => none

/-- Statement `SELECT * FROM configurations [WHERE filter]`: `none` when the query fails. -/
def Database.selectRows (e : SqlEngine) (db : Database) (filter : String) : Option (List Record) :=
  if !db.isOpen then none else db.matching e filter

/-- Statement `SELECT DISTINCT type FROM configurations`: `none` when the query fails. -/
def Database.selectDistinctType (db : Database) : Option (List String) :=
  if db.isOpen then some (db.rows.map (fun r => r.type)).eraseDups else none

/-- The state of a `ConfigurationModel`: its database, the installed filter, and
the rows of the last `select()` (the view). -/
structure ConfigurationModel where
  db : Database
  filter : String
  rows : List Record
  deriving DecidableEq

/-- A value as returned by `data()`. -/
inductive QVariant where
  | invalid
  | null
  | int (n : Int)
  | string (s : String)
  deriving DecidableEq

/-- A model index: valid when row and column are non-negative. -/
structure QModelIndex where
  row : Int
  column : Int
  deriving DecidableEq

/-- Test `QModelIndex::isValid()`. -/
def QModelIndex.isValid (i : QModelIndex) : Bool := decide (0 ≤ i.row) && decide (0 ≤ i.column)

/-- The role constant `Qt::UserRole`. -/
def UserRole : Int := 256

/-- The role constant `Qt::DisplayRole`. -/
def DisplayRole : Int := 0

/-- The role constant `Qt::EditRole`. -/
def EditRole : Int := 2

/-- The value of a column of a row, the columns being those of the table in order. -/
def Record.value (r : Record) : Int → QVariant
  | 0 => QVariant.int r.id
  | 1 => QVariant.string r.type
  | 2 => QVariant.int r.version
  | 3 => QVariant.string r.name
  | 4 => QVariant.string r.data
  | 5 => match r.created_at with
    | some t => QVariant.string t
    | none => QVariant.null
  | _ => QVariant.invalid

/-- The column of a field name, `QSqlRecord::indexOf`: `-1` for an unknown name. -/
def indexOf (fieldName : String) : Int :=
  if fieldName = "id" then 0
  else if fieldName = "type" then 1
  else if fieldName = "version" then 2
  else if fieldName = "name" then 3
  else if fieldName = "data" then 4
  else if fieldName = "created_at" then 5
  else -1

namespace ConfigurationModel

/-- The number of rows of the view, `rowCount()`. -/
def rowCount (m : ConfigurationModel) : Int := m.rows.length

/-- The index of a cell, `index(row, column)`: invalid outside the view. -/
def index (m : ConfigurationModel) (row column : Int) : QModelIndex :=
  if 0 ≤ row ∧ row < m.rowCount ∧ 0 ≤ column ∧ column < 6 then ⟨row, column⟩ else ⟨-1, -1⟩

/-- The inherited `QSqlTableModel::data(index, role)`: the stored value for the
display and edit roles of a cell of the view, otherwise an invalid value. -/
def baseData (m : ConfigurationModel) (index : QModelIndex) (role : Int) : QVariant :=
  if !index.isValid then QVariant.invalid
  else if role ≠ DisplayRole ∧ role ≠ EditRole then QVariant.invalid
  else
    match m.rows[index.row.toNat]? with
    | some r => r.value index.column
    | none => QVariant.invalid

/-- The inherited `select()`: reloads the view from the database under the
installed filter; a failed query leaves an empty view. -/
def select (e : SqlEngine) (m : ConfigurationModel) : Bool × ConfigurationModel :=
  match m.db.selectRows e m.filter with
  | some rs => (true, { m with rows := rs })
  | none => (false, { m with rows := [] })

/-- The inherited `insertRecord(-1, record)` for a record carrying the four given
columns: under `OnFieldChange` the row is written at once; `none` when the
database rejects it. -/
def insertRecord (m : ConfigurationModel) (type : String) (version : Int) (name data : String) :
    Option ConfigurationModel :=
  match m.db.insertRow type version name data with
  | some db => some { m with db := db }
  | none => none

/-- The inherited `setRecord(row, record)`: under `OnFieldChange` the row of the
table with the primary key of view row `row` is rewritten at once; `none` when
the row does not exist or the database rejects the write. -/
def setRecord (m : ConfigurationModel) (row : Int) (record : Record) : Option ConfigurationModel :=
  if row < 0 then none
  else
    match m.rows[row.toNat]? with
    | none => none
    | some old =>
      match m.db.updateRow old.id record with
      | some db => some { m with db := db }
      | none => none

/-- The inherited `removeRow(row)`: under `OnFieldChange` the row of the table with
the primary key of view row `row` is deleted at once. -/
def removeRow (m : ConfigurationModel) (row : Int) : Option ConfigurationModel :=
  if row < 0 then none
  else
    match m.rows[row.toNat]? with
    | none => none
    | some old =>
      match m.db.deleteRow old.id with
      | some db => some { m with db := db }
      | none => none

/-- The inherited `submitAll()`: with `OnFieldChange` nothing is pending after a
successful write, so it succeeds and changes nothing. -/
def submitAll (m : ConfigurationModel) : Bool × ConfigurationModel := (true, m)

/-- The method `ConfigurationModel::addConfigurationFromJson`. -/
def addConfigurationFromJson (e : SqlEngine) (m : ConfigurationModel) (type : String)
    (version : Int) (name jsonData : String) : Bool × ConfigurationModel :=
  match m.insertRecord type version name jsonData with
  | none => (false, m)
  | some m1 =>
    let s := m1.submitAll
    if !s.1 then (false, s.2)
    else (true, (select e s.2).2)

/-- The method `ConfigurationModel::updateConfigurationFromJson`. -/
def updateConfigurationFromJson (e : SqlEngine) (m : ConfigurationModel) (row : Int)
    (jsonData : String) : Bool × ConfigurationModel :=
  if row < 0 ∨ row ≥ m.rowCount then (false, m)
  else
    match m.rows[row.toNat]? with
    | none => (false, m)
    | some r =>
      let record := { r with data := jsonData }
      match m.setRecord row record with
      | none => (false, m)
      | some m1 =>
        let s := m1.submitAll
        if !s.1 then (false, s.2)
        else (true, (select e s.2).2)

/-- The method `ConfigurationModel::removeConfiguration`. -/
def removeConfiguration (e : SqlEngine) (m : ConfigurationModel) (row : Int) :
    Bool × ConfigurationModel :=
  if row < 0 ∨ row ≥ m.rowCount then (false, m)
  else
    match m.removeRow row with
    | none => (false, m)
    | some m1 =>
      let s := m1.submitAll
      if !s.1 then (false, s.2)
      else (true, (select e s.2).2)

/-- The method `ConfigurationModel::refresh`. -/
def refresh (e : SqlEngine) (m : ConfigurationModel) : ConfigurationModel := (select e m).2

end ConfigurationModel

/-- Test `QChar::isSpace()`: tab to carriage return, space, next line, no-break
space and the Unicode separators. -/
def isSpace (c : Char) : Bool :=
  let u := c.toNat
  u == 0x20 || (0x09 ≤ u && u ≤ 0x0D) || u == 0x85 || u == 0xA0 || u == 0x1680 ||
    (0x2000 ≤ u && u ≤ 0x200A) || u == 0x2028 || u == 0x2029 || u == 0x202F ||
    u == 0x205F || u == 0x3000

/-- The method `QString::trimmed()`: whitespace removed from both ends. -/
def trimmed (s : String) : String :=
  String.mk ((s.data.dropWhile isSpace).reverse.dropWhile isSpace).reverse

/-- The loop `while (q.next())` of `distinctTypes` over the values of the query. -/
def collectTypes : List String → List String → List String
  | result, [] => result
  | result, v :: rest =>
    let t := trimmed v
    if t ≠ "" then collectTypes (result ++ [t]) rest
    else collectTypes result rest

/-- The text `doc.toJson(QJsonDocument::Compact)` of the object `{"param": param}`. -/
def compactParamJson (param : Int) : String :=
  "\x7b\"param\":" ++ toString param ++ "\x7d"

namespace ConfigurationModel

/-- The method `ConfigurationModel::distinctTypes`. -/
def distinctTypes (m : ConfigurationModel) : List String :=
  let result : List String := []
  match m.db.selectDistinctType with
  | none => result
  | some values => collectTypes result values

/-- The method `ConfigurationModel::addConfiguration` (legacy). -/
def addConfiguration (e : SqlEngine) (m : ConfigurationModel) (name : String) (param : Int) :
    Bool × ConfigurationModel :=
  addConfigurationFromJson e m "simple" 1 name (compactParamJson param)

/-- The method `ConfigurationModel::updateConfiguration` (legacy). -/
def updateConfiguration (e : SqlEngine) (m : ConfigurationModel) (row : Int) (name : String)
    (param : Int) : Bool × ConfigurationModel :=
  if row < 0 ∨ row ≥ m.rowCount then (false, m)
  else
    match m.rows[row.toNat]? with
    | none => (false, m)
    | some r =>
      let record := { r with name := name }
      let record := { record with data := compactParamJson param }
      match m.setRecord row record with
      | none => (false, m)
      | some m1 =>
        let s := m1.submitAll
        if !s.1 then (false, s.2)
        else (true, (select e s.2).2)

/-- The column name the `switch (role)` of `data()` selects, `none` in the
`default` case. -/
def roleField (role : Int) : Option String :=
  if role = UserRole + 1 then some "id"
  else if role = UserRole + 2 then some "type"
  else if role = UserRole + 3 then some "version"
  else if role = UserRole + 4 then some "name"
  else if role = UserRole + 5 then some "data"
  else none

/-- The method `ConfigurationModel::data`. -/
def data (m : ConfigurationModel) (index : QModelIndex) (role : Int) : QVariant :=
  if !index.isValid then QVariant.invalid
  else if role < UserRole then m.baseData index role
  else
    match roleField role with
    | none => QVariant.invalid
    | some fieldName =>
      let col := indexOf fieldName
      if col < 0 then QVariant.invalid
      else m.baseData (m.index index.row col) DisplayRole

end ConfigurationModel

/-! ## Specification-side definitions for the template registry -/

/-- The entries of a map are in strictly increasing key order, the invariant of
`QMap`. -/
def QMap.Sorted {α : Type} (m : QMap α) : Prop :=
  List.Pairwise (fun a b => keyLess a b = true) (QMap.keys m)

/-- The three template sources in the order of `loadTemplates`: the bundled
resource, the working-directory file, the application-data file. -/
def sourcePaths (env : Env) : List String :=
  [":/templates.json", env.currentFilePath "templates.json", env.appDataFilePath "templates.json"]

/-- A source is usable when it can be read, is well-formed JSON, and its
top-level value is an object or an array; otherwise it is skipped (`none`). -/
def sourceDocument (env : Env) (path : String) : Option QJsonValue :=
  match env.readAll path with
  | none => none
  | some raw =>
    match env.fromJson raw with
    | some (QJsonValue.object root) => some (QJsonValue.object root)
    | some (QJsonValue.array items) => some (QJsonValue.array items)
    | _ => none

/-- The normalisation of a usable document: the mapping `loadFromPath` builds from it. -/
def normalize (doc : QJsonValue) : Templates := (loadFromDocument doc).2

/-- A member of an object that is a string. -/
def stringMember (obj : QJsonObject) (k : String) : Option String :=
  match QMap.find obj k with
  | some (QJsonValue.string s) => some s
  | _ => none

/-- The first non-empty string among the `type`, `id`, `name` members. -/
def specFirstName (obj : QJsonObject) : Option String :=
  (["type", "id", "name"].filterMap (stringMember obj)).find? (fun s => decide (s ≠ ""))

/-- The name of an array entry: its first non-empty string among `type`, `id`,
`name`, otherwise `template_<n>` with `n` the number of templates already in the
mapping plus one. -/
def specEntryName (count : Nat) (obj : QJsonObject) : String :=
  (specFirstName obj).getD ("template_" ++ toString (count + 1))

/-- The array rule: object-valued entries are registered under `specEntryName`
in order, other entries are skipped; yields the names in the order of
assignment together with the mapping. -/
def specLoadArray : Templates → List QJsonValue → List String × Templates
  | m, [] => ([], m)
  | m, QJsonValue.object obj :: rest =>
    let r := specLoadArray (m.insert (specEntryName m.size obj) obj) rest
    (specEntryName m.size obj :: r.1, r.2)
  | m, _ :: rest => specLoadArray m rest

/-- The key of the single-template shape: the `title` string, or `default` when
it is absent or empty. -/
def specTitleKey (root : QJsonObject) : String :=
  match QMap.find root "title" with
  | some (QJsonValue.string s) => if s = "" then "default" else s
  | _ => "default"

/-- Whether a usable document contributes at least one template: always for the
single-template shape, otherwise when some entry (of the `templates` array, of
the top-level array, or of the key-value object) is an object. -/
def hasTemplateEntry : QJsonValue → Bool
  | QJsonValue.object root =>
    if QMap.contains root "fields" && (QJsonObject.value root "fields").isArray then true
    else if QMap.contains root "templates" && (QJsonObject.value root "templates").isArray then
      (QJsonObject.value root "templates").toArray.any QJsonValue.isObject
    else root.any (fun e => e.2.isObject)
  | QJsonValue.array items => items.any QJsonValue.isObject
  | _ => false

/-- The object of the last entry, in the order of the source, that resolved to the
name `k`; `none` when no entry did. -/
def lastEntry : List (String × QJsonObject) → String → Option QJsonObject
  | [], _ => none
  | e :: rest, k =>
    match lastEntry rest k with
    | some obj => some obj
    | none => if e.1 = k then some e.2 else none

/-- The array the per-entry naming rule runs over: the top-level array, or the
`templates` array of a top-level object without a `fields` array. -/
def arrayOfDocument : QJsonValue → Option (List QJsonValue)
  | QJsonValue.array items => some items
  | QJsonValue.object root =>
    if QMap.contains root "fields" && (QJsonObject.value root "fields").isArray then none
    else if QMap.contains root "templates" && (QJsonObject.value root "templates").isArray then
      some (QJsonObject.value root "templates").toArray
    else none
  | _ => none

/-- Whether a document has the key-value shape: an object with neither a `fields`
array nor a `templates` array. -/
def isKeyValueShape : QJsonValue → Bool
  | QJsonValue.object root =>
    !(QMap.contains root "fields" && (QJsonObject.value root "fields").isArray) &&
      !(QMap.contains root "templates" && (QJsonObject.value root "templates").isArray)
  | _ => false

/-- The document `loadTemplates` ends on: that of the first usable source. -/
def firstDocument (env : Env) : Option QJsonValue :=
  (sourcePaths env).findSome? (sourceDocument env)

/-! ## Specification-side definitions for the record store -/

/-- The primary key is unique among the persisted records. -/
def Database.KeysUnique (db : Database) : Prop := (db.rows.map (fun r => r.id)).Nodup

/-- The view holds what a `select()` yields: the state every successful
operation leaves. -/
def ConfigurationModel.InSync (e : SqlEngine) (m : ConfigurationModel) : Prop :=
  (m.db.matching e m.filter).getD [] = m.rows

instance (db : Database) : Decidable db.KeysUnique :=
  inferInstanceAs (Decidable (List.Nodup (db.rows.map (fun r : Record => r.id))))

instance (e : SqlEngine) (m : ConfigurationModel) : Decidable (m.InSync e) :=
  inferInstanceAs (Decidable ((m.db.matching e m.filter).getD [] = m.rows))

/-- An environment whose bundled resource holds the empty array `[]` and whose
other two sources are missing. -/
def envEmptyArray : Env where
  readAll := fun p => if p = ":/templates.json" then some "[]" else none
  fromJson := fun raw => if raw = "[]" then some (QJsonValue.array []) else none
  currentFilePath := fun f => "/work/" ++ f
  appDataFilePath := fun f => "/appdata/" ++ f

/-- An environment with no readable source. -/
def envNoSource : Env where
  readAll := fun _ => none
  fromJson := fun _ => none
  currentFilePath := fun f => "/work/" ++ f
  appDataFilePath := fun f => "/appdata/" ++ f

/-- The array `[{"id":"a"},{"name":"b"},{}]`. -/
def exampleArray : List QJsonValue :=
  [QJsonValue.object [("id", QJsonValue.string "a")],
   QJsonValue.object [("name", QJsonValue.string "b")],
   QJsonValue.object []]

/-- An environment whose bundled resource holds `[{"id":"a"},{"name":"b"},{}]`. -/
def envExampleArray : Env where
  readAll := fun p => if p = ":/templates.json" then some "[\x7b\"id\":\"a\"\x7d,\x7b\"name\":\"b\"\x7d,\x7b\x7d]" else none
  fromJson := fun _ => some (QJsonValue.array exampleArray)
  currentFilePath := fun f => "/work/" ++ f
  appDataFilePath := fun f => "/appdata/" ++ f

/-- The object `{"fields":[],"title":"X","templates":[{"id":"a"}]}`. -/
def exampleSingle : QJsonObject :=
  [("fields", QJsonValue.array []), ("templates", QJsonValue.array [QJsonValue.object [("id", QJsonValue.string "a")]]),
   ("title", QJsonValue.string "X")]

/-- An environment whose bundled resource holds `exampleSingle`. -/
def envExampleSingle : Env where
  readAll := fun p => if p = ":/templates.json" then some "single" else none
  fromJson := fun _ => some (QJsonValue.object exampleSingle)
  currentFilePath := fun f => "/work/" ++ f
  appDataFilePath := fun f => "/appdata/" ++ f

/-- An environment whose bundled resource holds `{"":{}}`, an object whose only
member has the empty string as key and an object as value. -/
def envEmptyKey : Env where
  readAll := fun p => if p = ":/templates.json" then some "\x7b\"\":\x7b\x7d\x7d" else none
  fromJson := fun _ => some (QJsonValue.object [("", QJsonValue.object [])])
  currentFilePath := fun f => "/work/" ++ f
  appDataFilePath := fun f => "/appdata/" ++ f

/-- The array `[{"id":"template_2","label":"first"},{"label":"second"}]`: the second
entry has no name and the name synthesized for it is the explicit name of the
first. -/
def exampleCollision : List QJsonValue :=
  [QJsonValue.object [("id", QJsonValue.string "template_2"), ("label", QJsonValue.string "first")],
   QJsonValue.object [("label", QJsonValue.string "second")]]

/-- An environment whose bundled resource holds `exampleCollision`. -/
def envCollision : Env where
  readAll := fun p =>
    if p = ":/templates.json" then
      some "[\x7b\"id\":\"template_2\",\"label\":\"first\"\x7d,\x7b\"label\":\"second\"\x7d]"
    else none
  fromJson := fun _ => some (QJsonValue.array exampleCollision)
  currentFilePath := fun f => "/work/" ++ f
  appDataFilePath := fun f => "/appdata/" ++ f

/-- An engine that understands the one filter expression `version = 2`. -/
def engineVersion2 : SqlEngine where
  evalWhere := fun s => if s = "version = 2" then some (fun r => decide (r.version = 2)) else none

/-- The empty store: no record, no id handed out yet, no filter. -/
def emptyStore : ConfigurationModel :=
  { db := { rows := [], seq := 0, isOpen := true, stamp := none }, filter := "", rows := [] }

/-- A store with two records, in sync, without a filter. -/
def storeTwoRecords : ConfigurationModel :=
  { db := { rows := [⟨1, "simple", 1, "Room A", "\x7b\"param\":42\x7d", none⟩,
                     ⟨2, "advanced", 1, "Gateway", "\x7b\"host\":\"h\"\x7d", none⟩],
            seq := 2, isOpen := true, stamp := none },
    filter := "",
    rows := [⟨1, "simple", 1, "Room A", "\x7b\"param\":42\x7d", none⟩,
             ⟨2, "advanced", 1, "Gateway", "\x7b\"host\":\"h\"\x7d", none⟩] }

/-- No sequence of code units is below itself. -/
theorem unitsLt_irrefl (a : List Nat) : unitsLt a a = false := by
  induction a with
  | nil => rfl
  | cons x xs ih => simp [unitsLt, ih]

/-- The order on code unit sequences is transitive. -/
theorem unitsLt_trans (a : List Nat) :
    ∀ b c : List Nat, unitsLt a b = true → unitsLt b c = true → unitsLt a c = true := by
  induction a with
  | nil =>
    intro b c hab hbc
    cases b with
    | nil => simp [unitsLt] at hab
    | cons y ys =>
      cases c with
      | nil => simp [unitsLt] at hbc
      | cons z zs => simp [unitsLt]
  | cons x xs ih =>
    intro b c hab hbc
    cases b with
    | nil => simp [unitsLt] at hab
    | cons y ys =>
      cases c with
      | nil => simp [unitsLt] at hbc
      | cons z zs =>
        simp only [unitsLt, Bool.or_eq_true, Bool.and_eq_true, decide_eq_true_eq] at hab hbc ⊢
        rcases hab with hab | ⟨hxy, hab⟩
        · rcases hbc with hbc | ⟨hyz, _⟩
          · left; omega
          · left; omega
        · rcases hbc with hbc | ⟨hyz, hbc⟩
          · left; omega
          · right; exact ⟨by omega, ih ys zs hab hbc⟩

/-- Two different code unit sequences are ordered one way or the other. -/
theorem unitsLt_total (a : List Nat) :
    ∀ b : List Nat, unitsLt a b = false → a ≠ b → unitsLt b a = true := by
  induction a with
  | nil =>
    intro b hab hne
    cases b with
    | nil => exact absurd rfl hne
    | cons y ys => simp [unitsLt] at hab
  | cons x xs ih =>
    intro b hab hne
    cases b with
    | nil => simp [unitsLt]
    | cons y ys =>
      simp only [unitsLt, Bool.or_eq_false_iff, Bool.and_eq_false_iff, decide_eq_false_iff_not]
        at hab
      simp only [unitsLt, Bool.or_eq_true, Bool.and_eq_true, decide_eq_true_eq]
      obtain ⟨h1, h2⟩ := hab
      by_cases hxy : x = y
      · subst hxy
        right
        refine ⟨rfl, ih ys ?_ ?_⟩
        · rcases h2 with h2 | h2
          · exact absurd rfl h2
          · exact h2
        · intro h; exact hne (by rw [h])
      · left; omega

/-- A character is determined by its code point. -/
theorem char_toNat_inj (a b : Char) (h : a.toNat = b.toNat) : a = b := by
  apply Char.ext
  apply UInt32.ext
  exact h

/-- A code point is a Unicode scalar value: not a surrogate, below `0x110000`. -/
theorem char_toNat_valid (c : Char) :
    c.toNat < 0xD800 ∨ (0xDFFF < c.toNat ∧ c.toNat < 0x110000) := c.valid

/-- The UTF-16 encoding determines the characters. -/
theorem codeUnits_chars_inj (a : List Char) :
    ∀ b : List Char, a.flatMap utf16 = b.flatMap utf16 → a = b := by
  induction a with
  | nil =>
    intro b h
    cases b with
    | nil => rfl
    | cons y ys =>
      simp only [List.flatMap_nil, List.flatMap_cons, utf16] at h
      split at h <;> simp at h
  | cons x xs ih =>
    intro b h
    cases b with
    | nil =>
      simp only [List.flatMap_nil, List.flatMap_cons, utf16] at h
      split at h <;> simp at h
    | cons y ys =>
      have hx := char_toNat_valid x
      have hy := char_toNat_valid y
      simp only [List.flatMap_cons, utf16] at h
      by_cases h1 : x.toNat < 0x10000 <;> by_cases h2 : y.toNat < 0x10000
      · simp only [h1, h2, if_true, List.singleton_append, List.cons.injEq] at h
        rw [char_toNat_inj x y h.1, ih ys h.2]
      · simp only [h1, h2, if_true, if_false, List.singleton_append, List.cons_append,
          List.cons.injEq] at h
        omega
      · simp only [h1, h2, if_true, if_false, List.singleton_append, List.cons_append,
          List.cons.injEq] at h
        omega
      · simp only [h1, h2, if_false, List.cons_append, List.cons.injEq, List.nil_append] at h
        obtain ⟨e1, e2, e3⟩ := h
        have : x.toNat = y.toNat := by omega
        rw [char_toNat_inj x y this, ih ys e3]

/-- A string is determined by its code units. -/
theorem codeUnits_inj (a b : String) (h : codeUnits a = codeUnits b) : a = b :=
  String.ext (codeUnits_chars_inj a.data b.data h)

/-- No key is below itself. -/
theorem keyLess_irrefl (a : String) : keyLess a a = false := unitsLt_irrefl _

/-- The key order is transitive. -/
theorem keyLess_trans (a b c : String) (hab : keyLess a b = true) (hbc : keyLess b c = true) :
    keyLess a c = true := unitsLt_trans _ _ _ hab hbc

/-- Two different keys are ordered one way or the other. -/
theorem keyLess_total (a b : String) (hab : keyLess a b = false) (hne : a ≠ b) :
    keyLess b a = true :=
  unitsLt_total _ _ hab (fun h => hne (codeUnits_inj a b h))


/-! ## Lemmas on the map and the loops -/

/-- The keys after an insertion: the inserted key and the earlier keys. -/
theorem QMap.mem_keys_insert_iff {α : Type} (m : QMap α) (k : String) (v : α) (k1 : String) :
    k1 ∈ QMap.keys (QMap.insert m k v) ↔ k1 = k ∨ k1 ∈ QMap.keys m := by
  induction m with
  | nil => simp [QMap.insert, QMap.keys]
  | cons e rest ih =>
    obtain ⟨k0, v0⟩ := e
    simp only [QMap.insert]
    split
    · simp [QMap.keys]
    · split
      · rename_i heq
        subst heq
        simp [QMap.keys]
      · simp only [QMap.keys, List.map_cons, List.mem_cons] at ih ⊢
        rw [ih]
        constructor
        · rintro (h | h | h)
          · exact Or.inr (Or.inl h)
          · exact Or.inl h
          · exact Or.inr (Or.inr h)
        · rintro (h | h | h)
          · exact Or.inr (Or.inl h)
          · exact Or.inl h
          · exact Or.inr (Or.inr h)

/-- Insertion keeps the entries sorted by key. -/
theorem QMap.insert_sorted {α : Type} (m : QMap α) (k : String) (v : α) (h : QMap.Sorted m) :
    QMap.Sorted (QMap.insert m k v) := by
  induction m with
  | nil => simp [QMap.insert, QMap.Sorted, QMap.keys]
  | cons e rest ih =>
    obtain ⟨k0, v0⟩ := e
    have h0 : ∀ k1 ∈ QMap.keys rest, keyLess k0 k1 = true := by
      intro k1 hk1
      exact (List.pairwise_cons.mp h).1 k1 hk1
    have hrest : QMap.Sorted rest := (List.pairwise_cons.mp h).2
    simp only [QMap.insert]
    split
    · rename_i hlt
      unfold QMap.Sorted QMap.keys
      simp only [List.map_cons]
      refine List.pairwise_cons.mpr ⟨?_, h⟩
      intro k1 hk1
      rcases List.mem_cons.mp hk1 with rfl | hk1
      · exact hlt
      · exact keyLess_trans _ _ _ hlt (h0 k1 hk1)
    · split
      · rename_i heq
        subst heq
        exact h
      · rename_i hlt hne
        unfold QMap.Sorted
        have hkeys : QMap.keys ((k0, v0) :: QMap.insert rest k v) =
            k0 :: QMap.keys (QMap.insert rest k v) := rfl
        rw [hkeys]
        refine List.pairwise_cons.mpr ⟨?_, ih hrest⟩
        intro k1 hk1
        rcases (QMap.mem_keys_insert_iff rest k v k1).mp hk1 with rfl | hk1
        · exact keyLess_total _ _ (by simpa using hlt) hne
        · exact h0 k1 hk1

/-- A sorted map holds every key once. -/
theorem QMap.nodup_keys_of_sorted {α : Type} (m : QMap α) (h : QMap.Sorted m) :
    (QMap.keys m).Nodup := by
  unfold QMap.Sorted at h
  refine List.Pairwise.imp ?_ h
  intro a b hab heq
  subst heq
  rw [keyLess_irrefl] at hab
  cases hab

/-- After an insertion the inserted key maps to the inserted value. -/
theorem QMap.find_insert_self {α : Type} (m : QMap α) (k : String) (v : α) :
    QMap.find (QMap.insert m k v) k = some v := by
  induction m with
  | nil => simp [QMap.insert, QMap.find]
  | cons e rest ih =>
    obtain ⟨k0, v0⟩ := e
    simp only [QMap.insert]
    split
    · simp [QMap.find]
    · split
      · simp [QMap.find]
      · rename_i hne
        have hne2 : ¬ k0 = k := fun h => hne h.symm
        simp only [QMap.find, List.find?_cons, hne2, decide_False] at ih ⊢
        exact ih

/-- An insertion leaves the values of the other keys as they were. -/
theorem QMap.find_insert_of_ne {α : Type} (m : QMap α) (k : String) (v : α) (k1 : String)
    (hk : k1 ≠ k) : QMap.find (QMap.insert m k v) k1 = QMap.find m k1 := by
  have hk2 : ¬ k = k1 := fun h => hk h.symm
  induction m with
  | nil => simp [QMap.insert, QMap.find, hk2]
  | cons e rest ih =>
    obtain ⟨k0, v0⟩ := e
    simp only [QMap.insert]
    split
    · simp [QMap.find, hk2]
    · split
      · rename_i heq
        subst heq
        simp [QMap.find, hk2]
      · by_cases h0 : k0 = k1
        · simp [QMap.find, h0]
        · simp only [QMap.find, List.find?_cons, h0, decide_False] at ih ⊢
          exact ih
/-- The array loop keeps the mapping sorted by key. -/
theorem loadArray_sorted (xs : List QJsonValue) :
    ∀ m : Templates, QMap.Sorted m → QMap.Sorted (loadArray m xs) := by
  induction xs with
  | nil => intro m h; simpa [loadArray] using h
  | cons x rest ih =>
    intro m h
    simp only [loadArray]
    split
    · exact ih m h
    · exact ih _ (QMap.insert_sorted _ _ _ h)

/-- The key-value loop keeps the mapping sorted by key. -/
theorem loadMap_sorted (xs : List (String × QJsonValue)) :
    ∀ m : Templates, QMap.Sorted m → QMap.Sorted (loadMap m xs) := by
  induction xs with
  | nil => intro m h; simpa [loadMap] using h
  | cons x rest ih =>
    intro m h
    obtain ⟨k, v⟩ := x
    simp only [loadMap]
    split
    · exact ih m h
    · exact ih _ (QMap.insert_sorted _ _ _ h)



theorem QMap.insert_ne_nil {α : Type} (m : QMap α) (k : String) (v : α) :
    QMap.insert m k v ≠ [] := by
  cases m with
  | nil => simp [QMap.insert]
  | cons e rest =>
    obtain ⟨k0, v0⟩ := e
    simp only [QMap.insert]
    split
    · simp
    · split <;> simp

theorem loadArray_ne_nil (xs : List QJsonValue) :
    ∀ m : Templates, m ≠ [] → loadArray m xs ≠ [] := by
  induction xs with
  | nil => intro m hm; simpa [loadArray] using hm
  | cons x rest ih =>
    intro m hm
    simp only [loadArray]
    split
    · exact ih m hm
    · exact ih _ (QMap.insert_ne_nil _ _ _)

theorem loadArray_eq_nil_iff (xs : List QJsonValue) :
    loadArray [] xs = [] ↔ xs.any QJsonValue.isObject = false := by
  induction xs with
  | nil => simp [loadArray]
  | cons x rest ih =>
    simp only [loadArray, List.any_cons]
    cases hx : x.isObject with
    | false => simpa using ih
    | true =>
      simp only [Bool.not_true, Bool.false_eq_true, if_false, Bool.true_or]
      constructor
      · intro h
        exact absurd h (loadArray_ne_nil rest _ (QMap.insert_ne_nil _ _ _))
      · intro h
        cases h

theorem loadMap_ne_nil (xs : List (String × QJsonValue)) :
    ∀ m : Templates, m ≠ [] → loadMap m xs ≠ [] := by
  induction xs with
  | nil => intro m hm; simpa [loadMap] using hm
  | cons x rest ih =>
    intro m hm
    obtain ⟨k, v⟩ := x
    simp only [loadMap]
    split
    · exact ih m hm
    · exact ih _ (QMap.insert_ne_nil _ _ _)

theorem loadMap_eq_nil_iff (xs : List (String × QJsonValue)) :
    loadMap [] xs = [] ↔ xs.any (fun e => e.2.isObject) = false := by
  induction xs with
  | nil => simp [loadMap]
  | cons x rest ih =>
    obtain ⟨k, v⟩ := x
    simp only [loadMap, List.any_cons]
    cases hx : v.isObject with
    | false => simpa using ih
    | true =>
      simp only [Bool.not_true, Bool.false_eq_true, if_false, Bool.true_or]
      constructor
      · intro h
        exact absurd h (loadMap_ne_nil rest _ (QMap.insert_ne_nil _ _ _))
      · intro h
        cases h

/-- The mapping built from a document is empty exactly when the document
contributes no template entry. -/
theorem loadFromDocument_eq_nil_iff (doc : QJsonValue) :
    (loadFromDocument doc).2 = [] ↔ hasTemplateEntry doc = false := by
  cases doc with
  | object root =>
    simp only [loadFromDocument, hasTemplateEntry]
    split
    · simpa using QMap.insert_ne_nil _ _ _
    · split
      · exact loadArray_eq_nil_iff _
      · exact loadMap_eq_nil_iff _
  | array items => exact loadArray_eq_nil_iff _
  | _ => simp [loadFromDocument, hasTemplateEntry]

/-- A usable source makes `loadFromPath` return `true` with its normalisation. -/
theorem loadFromPath_of_sourceDocument (env : Env) (path : String) (m : Templates)
    (doc : QJsonValue) (h : sourceDocument env path = some doc) :
    loadFromPath env path m = (true, normalize doc) := by
  unfold sourceDocument at h
  unfold loadFromPath normalize
  cases hr : env.readAll path with
  | none => simp [hr] at h
  | some raw =>
    simp only [hr] at h ⊢
    cases hj : env.fromJson raw with
    | none => simp [hj] at h
    | some d =>
      simp only [hj] at h ⊢
      cases d with
      | object root =>
        simp at h
        subst h
        simp only [loadFromDocument]
        split
        · rfl
        · split <;> rfl
      | array items =>
        simp at h
        subst h
        rfl
      | _ => simp at h

/-- A skipped source makes `loadFromPath` return `false`. -/
theorem loadFromPath_of_skipped (env : Env) (path : String) (m : Templates)
    (h : sourceDocument env path = none) :
    (loadFromPath env path m).1 = false := by
  unfold sourceDocument at h
  unfold loadFromPath
  cases hr : env.readAll path with
  | none => simp
  | some raw =>
    simp only [hr] at h ⊢
    cases hj : env.fromJson raw with
    | none => simp
    | some d =>
      simp only [hj] at h ⊢
      cases d <;> simp at h <;> rfl

/-- The result of `loadTemplates` by cases on which sources are usable. -/
theorem loadTemplates_cases (env : Env) (m : Templates) :
    loadTemplates env m =
      match sourceDocument env ":/templates.json" with
      | some d => (LoadOrigin.qtResources, normalize d)
      | none =>
        match sourceDocument env (env.currentFilePath "templates.json") with
        | some d => (LoadOrigin.applicationDirectory, normalize d)
        | none =>
          match sourceDocument env (env.appDataFilePath "templates.json") with
          | some d => (LoadOrigin.appDataDirectory, normalize d)
          | none => (LoadOrigin.defaults, createDefaultTemplates []) := by
  unfold loadTemplates
  cases h1 : sourceDocument env ":/templates.json" with
  | some d => simp [loadFromPath_of_sourceDocument env _ m d h1]
  | none =>
    simp only [loadFromPath_of_skipped env _ m h1]
    cases h2 : sourceDocument env (env.currentFilePath "templates.json") with
    | some d => simp [loadFromPath_of_sourceDocument env _ _ d h2]
    | none =>
      simp only [loadFromPath_of_skipped env _ _ h2]
      cases h3 : sourceDocument env (env.appDataFilePath "templates.json") with
      | some d => simp [loadFromPath_of_sourceDocument env _ _ d h3]
      | none =>
        simp only [loadFromPath_of_skipped env _ _ h3]
        simp [createDefaultTemplates]

/-- The document `loadTemplates` ends on, by cases. -/
theorem firstDocument_cases (env : Env) :
    firstDocument env =
      match sourceDocument env ":/templates.json" with
      | some d => some d
      | none =>
        match sourceDocument env (env.currentFilePath "templates.json") with
        | some d => some d
        | none => sourceDocument env (env.appDataFilePath "templates.json") := by
  unfold firstDocument sourcePaths
  simp only [List.findSome?]
  cases sourceDocument env ":/templates.json" <;>
    cases sourceDocument env (env.currentFilePath "templates.json") <;>
    cases sourceDocument env (env.appDataFilePath "templates.json") <;> rfl

theorem templates_eq_nil_iff (m : Templates) : templates m = [] ↔ m = [] := by
  simp [templates, QMap.keys]

theorem createDefaultTemplates_ne_nil (m : Templates) : createDefaultTemplates m ≠ [] := by
  simp only [createDefaultTemplates]
  exact QMap.insert_ne_nil _ _ _

/-! ## Claims on the template registry -/

/-- C1, as stated, fails: with the bundled resource holding the empty array `[]`,
`loadTemplates` returns from its first attempt and `templates()` is empty. -/
theorem C1_empty_source_gives_no_templates :
    (loadTemplates envEmptyArray []).1 = LoadOrigin.qtResources ∧
      templates (loadTemplates envEmptyArray []).2 = [] := by
  decide

/-- C1, amended: after `loadTemplates`, `templates()` is empty exactly when the
first usable source (readable, well-formed, object or array at top level)
contributes no template entry; when no source is usable the defaults are
listed, so the list is then non-empty. -/
theorem C1_templates_empty_iff (env : Env) (m : Templates) :
    (templates (loadTemplates env m).2 = [] ↔
        ∃ doc, firstDocument env = some doc ∧ hasTemplateEntry doc = false) ∧
      (firstDocument env = none → templates (loadTemplates env m).2 ≠ []) := by
  rw [templates_eq_nil_iff, loadTemplates_cases, firstDocument_cases]
  cases sourceDocument env ":/templates.json" with
  | some d => simp [normalize, loadFromDocument_eq_nil_iff]
  | none =>
    cases sourceDocument env (env.currentFilePath "templates.json") with
    | some d => simp [normalize, loadFromDocument_eq_nil_iff]
    | none =>
      cases sourceDocument env (env.appDataFilePath "templates.json") with
      | some d => simp [normalize, loadFromDocument_eq_nil_iff]
      | none => simp [templates_eq_nil_iff, createDefaultTemplates_ne_nil]

/-- Witness of C1, amended: with no usable source the list of templates is non-empty. -/
theorem C1_templates_empty_iff_witness :
    templates (loadTemplates envNoSource []).2 ≠ [] :=
  (C1_templates_empty_iff envNoSource []).2 rfl

/-- The code's name for an entry is the one the rule gives. -/
theorem entryName_eq_spec (m : Templates) (obj : QJsonObject) :
    entryName m obj = specEntryName m.size obj := by
  have key : ∀ k, (QJsonObject.value obj k).toQString = (stringMember obj k).getD "" := by
    intro k
    unfold QJsonObject.value stringMember QJsonValue.toQString
    cases hk : QMap.find obj k with
    | none => rfl
    | some v => cases v <;> rfl
  simp only [entryName, specEntryName, specFirstName, key, List.filterMap_cons,
    List.filterMap_nil]
  cases h1 : stringMember obj "type" with
  | some s1 =>
    by_cases e1 : s1 = ""
    · subst e1
      cases h2 : stringMember obj "id" with
      | some s2 =>
        by_cases e2 : s2 = ""
        · subst e2
          cases h3 : stringMember obj "name" with
          | some s3 => by_cases e3 : s3 = "" <;> simp [e3]
          | none => simp
        · simp [e2]
      | none =>
        cases h3 : stringMember obj "name" with
        | some s3 => by_cases e3 : s3 = "" <;> simp [e3]
        | none => simp
    · simp [e1]
  | none =>
    cases h2 : stringMember obj "id" with
    | some s2 =>
      by_cases e2 : s2 = ""
      · subst e2
        cases h3 : stringMember obj "name" with
        | some s3 => by_cases e3 : s3 = "" <;> simp [e3]
        | none => simp
      · simp [e2]
    | none =>
      cases h3 : stringMember obj "name" with
      | some s3 => by_cases e3 : s3 = "" <;> simp [e3]
      | none => simp

/-- The array loop and its log follow the array rule. -/
theorem loadArray_eq_spec (xs : List QJsonValue) :
    ∀ m : Templates, (loadArrayLog m xs, loadArray m xs) = specLoadArray m xs := by
  induction xs with
  | nil => intro m; rfl
  | cons x rest ih =>
    intro m
    cases x with
    | object obj =>
      have h := ih (m.insert (specEntryName m.size obj) obj)
      simp only [loadArray, loadArrayLog, specLoadArray, QJsonValue.isObject,
        QJsonValue.toObject, Bool.not_true, Bool.false_eq_true, if_false, entryName_eq_spec]
      rw [← h]
    | _ =>
      simp only [loadArray, loadArrayLog, specLoadArray, QJsonValue.isObject,
        Bool.not_false, if_true]
      exact ih m

/-- C2: for a top-level array, and for the `templates` array of a top-level object
without a `fields` array, `loadFromPath` succeeds with the mapping of the array
rule (object entries registered in order under the first non-empty string among
`type`, `id`, `name`, else under `template_<size+1>`; other entries skipped),
whatever was held before, and the log of the loop lists the names in the order
of assignment. On `[{"id":"a"},{"name":"b"},{}]` the names are `a`, `b`,
`template_3` in that order. -/
theorem C2_array_entries_named_by_rule (env : Env) (path raw : String) (prev : Templates)
    (items : List QJsonValue) (hread : env.readAll path = some raw) :
    (env.fromJson raw = some (QJsonValue.array items) →
        loadFromPath env path prev = (true, (specLoadArray [] items).2)) ∧
      (∀ root : QJsonObject,
        env.fromJson raw = some (QJsonValue.object root) →
        (QMap.contains root "fields" && (QJsonObject.value root "fields").isArray) = false →
        QMap.find root "templates" = some (QJsonValue.array items) →
        loadFromPath env path prev = (true, (specLoadArray [] items).2)) ∧
      loadArrayLog [] items = (specLoadArray [] items).1 ∧
      loadArrayLog [] exampleArray = ["a", "b", "template_3"] ∧
      (loadArray [] exampleArray).keys = ["a", "b", "template_3"] := by
  have hspec := loadArray_eq_spec items []
  have h1 : loadArray [] items = (specLoadArray [] items).2 := by rw [← hspec]
  have h2 : loadArrayLog [] items = (specLoadArray [] items).1 := by rw [← hspec]
  refine ⟨?_, ?_, h2, by decide, by decide⟩
  · intro hj
    simp only [loadFromPath, hread, hj, loadFromDocument, h1]
  · intro root hj hf ht
    have hc : QMap.contains root "templates" = true := by
      unfold QMap.find at ht
      unfold QMap.contains
      cases hfind : List.find? (fun e => decide (e.1 = "templates")) root with
      | none => simp [hfind] at ht
      | some e =>
        have hp := List.find?_some hfind
        rw [List.any_eq_true]
        exact ⟨e, List.mem_of_find?_eq_some hfind, hp⟩
    have hv : QJsonObject.value root "templates" = QJsonValue.array items := by
      simp [QJsonObject.value, ht]
    simp only [loadFromPath, hread, hj, loadFromDocument]
    rw [if_neg (by rw [hf]; simp), if_pos (by rw [hc, hv]; rfl), hv]
    simp only [QJsonValue.toArray, h1]

/-- Witness of C2 on the resource holding `[{"id":"a"},{"name":"b"},{}]`. -/
theorem C2_array_entries_named_by_rule_witness :
    loadFromPath envExampleArray ":/templates.json" [] =
      (true, (specLoadArray [] exampleArray).2) :=
  (C2_array_entries_named_by_rule envExampleArray ":/templates.json"
    "[\x7b\"id\":\"a\"\x7d,\x7b\"name\":\"b\"\x7d,\x7b\x7d]" [] exampleArray rfl).1 rfl

/-- C3: when the top-level object has a `fields` member that is an array,
`loadFromPath` succeeds and the mapping is exactly the one entry whose key is the
`title` string (or `default` when there is none or it is empty) and whose value
is the whole object, whatever was held before and whether or not a `templates`
member is present. -/
theorem C3_single_template_shape (env : Env) (path raw : String) (prev : Templates)
    (root : QJsonObject) (fields : List QJsonValue)
    (hread : env.readAll path = some raw)
    (hjson : env.fromJson raw = some (QJsonValue.object root))
    (hfields : QMap.find root "fields" = some (QJsonValue.array fields)) :
    loadFromPath env path prev = (true, [(specTitleKey root, root)]) := by
  have hc : QMap.contains root "fields" = true := by
    unfold QMap.find at hfields
    unfold QMap.contains
    cases hfind : List.find? (fun e => decide (e.1 = "fields")) root with
    | none => simp [hfind] at hfields
    | some e =>
      have hp := List.find?_some hfind
      rw [List.any_eq_true]
      exact ⟨e, List.mem_of_find?_eq_some hfind, hp⟩
  have hv : QJsonObject.value root "fields" = QJsonValue.array fields := by
    simp [QJsonObject.value, hfields]
  have hkey : (if (QJsonObject.value root "title").toStringOr "default" = "" then "default"
      else (QJsonObject.value root "title").toStringOr "default") = specTitleKey root := by
    unfold QJsonObject.value specTitleKey
    cases ht : QMap.find root "title" with
    | none => simp [QJsonValue.toStringOr]
    | some v => cases v <;> simp [QJsonValue.toStringOr]
  simp only [loadFromPath, hread, hjson, loadFromDocument]
  rw [if_pos (by rw [hc, hv]; rfl), hkey]
  rfl

/-- Witness of C3: `{"fields":[],"title":"X","templates":[...]}` loads as the one
entry keyed `X`, replacing the templates held before. -/
theorem C3_single_template_shape_witness :
    loadFromPath envExampleSingle ":/templates.json" (createDefaultTemplates []) =
      (true, [("X", exampleSingle)]) :=
  C3_single_template_shape envExampleSingle ":/templates.json" "single"
    (createDefaultTemplates []) exampleSingle [] rfl rfl rfl

/-- A synthesized name is not empty. -/
theorem template_name_ne_empty (n : Nat) : "template_" ++ toString n ≠ "" := by
  intro h
  have hlen := congrArg String.length h
  rw [String.length_append] at hlen
  have h9 : "template_".length = 9 := by decide
  have h0 : "".length = 0 := by decide
  omega

/-- The name chosen for an array entry is not empty. -/
theorem entryName_ne_empty (m : Templates) (obj : QJsonObject) : entryName m obj ≠ "" := by
  have key : ∀ a b : String, b ≠ "" → (if a = "" then b else a) ≠ "" := by
    intro a b hb
    split
    · exact hb
    · assumption
  simp only [entryName]
  exact key _ _ (template_name_ne_empty _)

/-- The array loop keeps all keys non-empty. -/
theorem loadArray_keys_ne_empty (xs : List QJsonValue) :
    ∀ m : Templates, (∀ k ∈ QMap.keys m, k ≠ "") → ∀ k ∈ QMap.keys (loadArray m xs), k ≠ "" := by
  induction xs with
  | nil => intro m h; simpa [loadArray] using h
  | cons x rest ih =>
    intro m h
    simp only [loadArray]
    split
    · exact ih m h
    · apply ih
      intro k hk
      rcases (QMap.mem_keys_insert_iff _ _ _ _).mp hk with rfl | hk
      · exact entryName_ne_empty _ _
      · exact h k hk

/-- C4 fails on the key-value shape: the source `{"":{}}` loads successfully and
the mapping then holds a template whose key is the empty string. On the other
shapes (single template, `templates` array, top-level array) and after
`createDefaultTemplates` every key is non-empty. -/
theorem C4_empty_key_registered :
    (loadFromPath envEmptyKey ":/templates.json" [] = (true, [("", [])]) ∧
      "" ∈ templates (loadFromPath envEmptyKey ":/templates.json" []).2) ∧
    (∀ doc : QJsonValue, isKeyValueShape doc = false →
      ∀ k ∈ templates (loadFromDocument doc).2, k ≠ "") ∧
    (∀ (m : Templates), ∀ k ∈ templates (createDefaultTemplates m), k ≠ "") := by
  refine ⟨⟨rfl, by decide⟩, ?_, ?_⟩
  · intro doc hshape k hk
    cases doc with
    | object root =>
      simp only [isKeyValueShape, Bool.and_eq_false_iff, Bool.not_eq_false] at hshape
      simp only [loadFromDocument, templates] at hk
      by_cases hf : (QMap.contains root "fields" && (QJsonObject.value root "fields").isArray) = true
      · rw [if_pos hf] at hk
        simp only [QMap.insert, QMap.keys, List.map_cons, List.map_nil, List.mem_singleton] at hk
        subst hk
        split
        · decide
        · assumption
      · rw [if_neg hf] at hk
        have ht : (QMap.contains root "templates" &&
            (QJsonObject.value root "templates").isArray) = true := by
          rcases hshape with h | h
          · exact absurd (by simpa using h) hf
          · simpa using h
        rw [if_pos ht] at hk
        exact loadArray_keys_ne_empty _ [] (by simp [QMap.keys]) k hk
    | array items =>
      simp only [loadFromDocument, templates] at hk
      exact loadArray_keys_ne_empty _ [] (by simp [QMap.keys]) k hk
    | _ => simp [loadFromDocument, templates, QMap.keys] at hk
  · intro m k hk
    have hkeys : templates (createDefaultTemplates m) = ["advanced", "simple"] := rfl
    rw [hkeys] at hk
    simp only [List.mem_cons, List.mem_singleton, List.not_mem_nil, or_false] at hk
    rcases hk with rfl | rfl <;> decide

/-- A source on which `loadFromPath` returns `false` is a skipped one. -/
theorem sourceDocument_of_load_false (env : Env) (path : String) (m : Templates)
    (h : (loadFromPath env path m).1 = false) : sourceDocument env path = none := by
  cases hs : sourceDocument env path with
  | none => rfl
  | some d =>
    rw [loadFromPath_of_sourceDocument env path m d hs] at h
    cases h

/-- C5: when every `loadFromPath` call returns `false`, `loadTemplates` ends on the
defaults and the mapping has exactly the two entries `advanced` and `simple`;
`simple` has the one field `param` (int, required, min 0, max 100, default 0) and
`advanced` has, in this order, `host` (string, required, default `localhost`),
`port` (int, required, min 1, max 65535, default 8080) and `timeout` (int, no
`required` member, min 100, max 60000, default 5000). -/
theorem C5_defaults_when_nothing_loads (env : Env) (m : Templates)
    (hnone : ∀ p ∈ sourcePaths env, ∀ m0 : Templates, (loadFromPath env p m0).1 = false) :
    loadTemplates env m =
        (LoadOrigin.defaults, [("advanced", advancedTemplate), ("simple", simpleTemplate)]) ∧
      simpleTemplate.value "fields" = QJsonValue.array [QJsonValue.object paramField] ∧
      (paramField.value "id" = QJsonValue.string "param" ∧
        paramField.value "type" = QJsonValue.string "int" ∧
        paramField.value "required" = QJsonValue.bool true ∧
        paramField.value "min" = QJsonValue.ofInt 0 ∧
        paramField.value "max" = QJsonValue.ofInt 100 ∧
        paramField.value "default" = QJsonValue.ofInt 0) ∧
      advancedTemplate.value "fields" =
        QJsonValue.array [QJsonValue.object hostField, QJsonValue.object portField,
          QJsonValue.object timeoutField] ∧
      (hostField.value "id" = QJsonValue.string "host" ∧
        hostField.value "type" = QJsonValue.string "string" ∧
        hostField.value "required" = QJsonValue.bool true ∧
        hostField.value "default" = QJsonValue.string "localhost") ∧
      (portField.value "id" = QJsonValue.string "port" ∧
        portField.value "type" = QJsonValue.string "int" ∧
        portField.value "required" = QJsonValue.bool true ∧
        portField.value "min" = QJsonValue.ofInt 1 ∧
        portField.value "max" = QJsonValue.ofInt 65535 ∧
        portField.value "default" = QJsonValue.ofInt 8080) ∧
      (timeoutField.value "id" = QJsonValue.string "timeout" ∧
        timeoutField.value "type" = QJsonValue.string "int" ∧
        QMap.contains timeoutField "required" = false ∧
        (timeoutField.value "required").toBool = false ∧
        timeoutField.value "min" = QJsonValue.ofInt 100 ∧
        timeoutField.value "max" = QJsonValue.ofInt 60000 ∧
        timeoutField.value "default" = QJsonValue.ofInt 5000) := by
  have h1 := sourceDocument_of_load_false env _ [] (hnone ":/templates.json" (by simp [sourcePaths]) [])
  have h2 := sourceDocument_of_load_false env _ []
    (hnone (env.currentFilePath "templates.json") (by simp [sourcePaths]) [])
  have h3 := sourceDocument_of_load_false env _ []
    (hnone (env.appDataFilePath "templates.json") (by simp [sourcePaths]) [])
  refine ⟨?_, rfl, ⟨rfl, rfl, rfl, rfl, rfl, rfl⟩, rfl, ⟨rfl, rfl, rfl, rfl⟩,
    ⟨rfl, rfl, rfl, rfl, rfl, rfl⟩, ⟨rfl, rfl, rfl, rfl, rfl, rfl, rfl⟩⟩
  rw [loadTemplates_cases, h1, h2, h3]
  rfl

/-- Witness of C5: with no readable source the registry holds the two defaults. -/
theorem C5_defaults_when_nothing_loads_witness :
    loadTemplates envNoSource [] =
      (LoadOrigin.defaults, [("advanced", advancedTemplate), ("simple", simpleTemplate)]) :=
  (C5_defaults_when_nothing_loads envNoSource [] (fun _ _ _ => rfl)).1

/-- C6: `loadTemplates` ends with the normalisation of the first usable source in
the order bundled resource, working-directory file, application-data file, and
with the defaults when there is none (so the sources after the first usable one
and the templates held before have no influence); it ends on the defaults
exactly when all three sources are skipped; `loadFromPath` returns `false`
exactly on a skipped source, and a source is skipped exactly when it cannot be
read, or is malformed JSON, or has a top-level value that is neither object
nor array. -/
theorem C6_first_usable_source_wins (env : Env) (m : Templates) :
    (loadTemplates env m).2 =
        (match (sourcePaths env).findSome? (sourceDocument env) with
          | some doc => normalize doc
          | none => createDefaultTemplates []) ∧
      ((loadTemplates env m).1 = LoadOrigin.defaults ↔
        ∀ p ∈ sourcePaths env, sourceDocument env p = none) ∧
      (∀ (p : String) (m0 : Templates),
        (loadFromPath env p m0).1 = false ↔ sourceDocument env p = none) ∧
      (∀ p : String, sourceDocument env p = none ↔
        (env.readAll p = none ∨
          ∃ raw, env.readAll p = some raw ∧
            (env.fromJson raw = none ∨
              ∃ doc, env.fromJson raw = some doc ∧ doc.isObject = false ∧ doc.isArray = false))) := by
  refine ⟨?_, ?_, ?_, ?_⟩
  · have hf := firstDocument_cases env
    unfold firstDocument at hf
    rw [hf, loadTemplates_cases]
    cases sourceDocument env ":/templates.json" with
    | some d => rfl
    | none =>
      cases sourceDocument env (env.currentFilePath "templates.json") with
      | some d => rfl
      | none =>
        cases sourceDocument env (env.appDataFilePath "templates.json") with
        | some d => rfl
        | none => rfl
  · rw [loadTemplates_cases]
    simp only [sourcePaths, List.mem_cons, List.mem_singleton, forall_eq_or_imp, forall_eq,
      List.not_mem_nil, false_implies, implies_true, and_true]
    cases sourceDocument env ":/templates.json" with
    | some d => simp
    | none =>
      cases sourceDocument env (env.currentFilePath "templates.json") with
      | some d => simp
      | none =>
        cases sourceDocument env (env.appDataFilePath "templates.json") with
        | some d => simp
        | none => simp
  · intro p m0
    constructor
    · exact sourceDocument_of_load_false env p m0
    · exact loadFromPath_of_skipped env p m0
  · intro p
    unfold sourceDocument
    cases hr : env.readAll p with
    | none => simp
    | some raw =>
      cases hj : env.fromJson raw with
      | none => simp [hj]
      | some d => cases d <;> simp [hj, QJsonValue.isObject, QJsonValue.isArray]

/-! ## Colliding names within one load -/

/-- The array loop is the sequence of its insertions. -/
theorem loadArray_eq_foldl (xs : List QJsonValue) :
    ∀ m : Templates,
      loadArray m xs =
        (loadArrayEntries m xs).foldl (fun acc e => QMap.insert acc e.1 e.2) m := by
  induction xs with
  | nil => intro m; rfl
  | cons x rest ih =>
    intro m
    simp only [loadArray, loadArrayEntries]
    split
    · exact ih m
    · simp only [List.foldl_cons]
      exact ih _

/-- The logged names are the names of the insertions. -/
theorem loadArrayEntries_names (xs : List QJsonValue) :
    ∀ m : Templates, (loadArrayEntries m xs).map Prod.fst = loadArrayLog m xs := by
  induction xs with
  | nil => intro m; rfl
  | cons x rest ih =>
    intro m
    simp only [loadArrayEntries, loadArrayLog]
    split
    · exact ih m
    · simp only [List.map_cons, List.cons.injEq, true_and]
      exact ih _

/-- There is one insertion per object-valued entry. -/
theorem loadArrayEntries_length (xs : List QJsonValue) :
    ∀ m : Templates, (loadArrayEntries m xs).length = (xs.filter QJsonValue.isObject).length := by
  induction xs with
  | nil => intro m; rfl
  | cons x rest ih =>
    intro m
    simp only [loadArrayEntries]
    cases hx : x.isObject with
    | false =>
      simp only [Bool.not_false, if_true]
      rw [List.filter_cons_of_neg (by simp [hx])]
      exact ih m
    | true =>
      simp only [Bool.not_true, Bool.false_eq_true, if_false, List.length_cons]
      rw [List.filter_cons_of_pos hx, List.length_cons, ih]

/-- After a sequence of insertions a name maps to the object of the last insertion
under that name, and to its earlier value when there is none. -/
theorem find_foldl_insert (es : List (String × QJsonObject)) :
    ∀ (m : Templates) (k : String),
      QMap.find (es.foldl (fun acc e => QMap.insert acc e.1 e.2) m) k =
        match lastEntry es k with
        | some obj => some obj
        | none => QMap.find m k := by
  induction es with
  | nil => intro m k; rfl
  | cons e rest ih =>
    intro m k
    simp only [List.foldl_cons, lastEntry]
    rw [ih]
    cases lastEntry rest k with
    | some obj => rfl
    | none =>
      by_cases hk : e.1 = k
      · subst hk
        simp only [if_true]
        exact QMap.find_insert_self m e.1 e.2
      · simp only [hk, if_false]
        exact QMap.find_insert_of_ne m e.1 e.2 k (fun h => hk h.symm)

/-- The keys after a sequence of insertions: the earlier keys and the inserted names. -/
theorem mem_keys_foldl_insert (es : List (String × QJsonObject)) :
    ∀ (m : Templates) (k : String),
      k ∈ QMap.keys (es.foldl (fun acc e => QMap.insert acc e.1 e.2) m) ↔
        k ∈ QMap.keys m ∨ k ∈ es.map Prod.fst := by
  induction es with
  | nil => intro m k; simp
  | cons e rest ih =>
    intro m k
    simp only [List.foldl_cons, List.map_cons, List.mem_cons]
    rw [ih, QMap.mem_keys_insert_iff]
    constructor
    · rintro ((h | h) | h)
      · exact Or.inr (Or.inl h)
      · exact Or.inl h
      · exact Or.inr (Or.inr h)
    · rintro (h | h | h)
      · exact Or.inl (Or.inr h)
      · exact Or.inl (Or.inl h)
      · exact Or.inr h

/-- The mapping the array rule builds holds each resolved name once. -/
theorem loadArray_size_eq_distinct (xs : List QJsonValue) :
    (QMap.keys (loadArray [] xs)).Nodup ∧
      (∀ k, k ∈ QMap.keys (loadArray [] xs) ↔ k ∈ loadArrayLog [] xs) ∧
      QMap.size (loadArray [] xs) = (loadArrayLog [] xs).dedup.length := by
  have hsorted : QMap.Sorted (loadArray [] xs) :=
    loadArray_sorted xs [] (by simp [QMap.Sorted, QMap.keys])
  have hnodup := QMap.nodup_keys_of_sorted _ hsorted
  have hmem : ∀ k, k ∈ QMap.keys (loadArray [] xs) ↔ k ∈ loadArrayLog [] xs := by
    intro k
    rw [loadArray_eq_foldl, mem_keys_foldl_insert, loadArrayEntries_names]
    simp [QMap.keys]
  refine ⟨hnodup, hmem, ?_⟩
  have hperm : (QMap.keys (loadArray [] xs)).Perm (loadArrayLog [] xs).dedup := by
    rw [List.perm_ext_iff_of_nodup hnodup (List.nodup_dedup _)]
    intro k
    rw [hmem k, List.mem_dedup]
  have hlen := hperm.length_eq
  simpa [QMap.size, QMap.keys] using hlen

/-- C11: within one load over an array (the top-level array, or the `templates`
array of an object without a `fields` array) the mapping holds every resolved
name once, and a name maps to the object of the last entry that resolved to it;
so the number of templates is the number of distinct resolved names, at most the
number of object-valued entries. On `[{"id":"template_2",...},{"label":"second"}]`
the name synthesized for the second entry is the explicit name of the first: both
entries resolve to `template_2`, and the mapping has the one entry `template_2`
holding the second object, one template for two object-valued entries. -/
theorem C11_colliding_names_keep_later_entry (env : Env) (path raw : String)
    (prev : Templates) (doc : QJsonValue) (items : List QJsonValue)
    (hread : env.readAll path = some raw) (hjson : env.fromJson raw = some doc)
    (hdoc : arrayOfDocument doc = some items) :
    (loadFromPath env path prev).1 = true ∧
      (loadFromPath env path prev).2 = loadArray [] items ∧
      (∀ k, QMap.find (loadFromPath env path prev).2 k =
        lastEntry (loadArrayEntries [] items) k) ∧
      (templates (loadFromPath env path prev).2).Nodup ∧
      (∀ k, k ∈ templates (loadFromPath env path prev).2 ↔ k ∈ loadArrayLog [] items) ∧
      QMap.size (loadFromPath env path prev).2 = (loadArrayLog [] items).dedup.length ∧
      QMap.size (loadFromPath env path prev).2 ≤ (items.filter QJsonValue.isObject).length ∧
      (loadArrayLog [] exampleCollision = ["template_2", "template_2"] ∧
        loadArray [] exampleCollision =
          [("template_2", [("label", QJsonValue.string "second")])] ∧
        (exampleCollision.filter QJsonValue.isObject).length = 2) := by
  have hload : loadFromPath env path prev = (true, loadArray [] items) := by
    simp only [loadFromPath, hread, hjson]
    cases doc with
    | array xs =>
      simp only [arrayOfDocument, Option.some.injEq] at hdoc
      subst hdoc
      rfl
    | object root =>
      simp only [arrayOfDocument] at hdoc
      simp only [loadFromDocument]
      split at hdoc
      · cases hdoc
      · rename_i hf
        rw [if_neg hf]
        split at hdoc
        · rename_i ht
          rw [if_pos ht]
          simp only [Option.some.injEq] at hdoc
          rw [hdoc]
        · cases hdoc
    | _ => simp [arrayOfDocument] at hdoc
  obtain ⟨hnodup, hmem, hsize⟩ := loadArray_size_eq_distinct items
  rw [hload]
  refine ⟨rfl, rfl, ?_, hnodup, hmem, hsize, ?_, rfl, rfl, rfl⟩
  · intro k
    show QMap.find (loadArray [] items) k = lastEntry (loadArrayEntries [] items) k
    rw [loadArray_eq_foldl, find_foldl_insert]
    cases lastEntry (loadArrayEntries [] items) k <;> rfl
  · show QMap.size (loadArray [] items) ≤ (items.filter QJsonValue.isObject).length
    rw [hsize, ← loadArrayEntries_length items [], ← List.length_map (loadArrayEntries [] items)
      Prod.fst, loadArrayEntries_names]
    exact (List.dedup_sublist _).length_le

/-- Witness of C11: the resource holding `exampleCollision` loads as the one entry
`template_2` with the second object. -/
theorem C11_colliding_names_keep_later_entry_witness :
    (loadFromPath envCollision ":/templates.json" []).2 =
        [("template_2", [("label", QJsonValue.string "second")])] ∧
      QMap.size (loadFromPath envCollision ":/templates.json" []).2 = 1 :=
  have h := C11_colliding_names_keep_later_entry envCollision ":/templates.json"
    "[\x7b\"id\":\"template_2\",\"label\":\"first\"\x7d,\x7b\"label\":\"second\"\x7d]"
    [] (QJsonValue.array exampleCollision) exampleCollision rfl rfl rfl
  ⟨h.2.1, h.2.2.2.2.2.1⟩

/-! ## Lemmas on the record store -/

/-- Every id of the table is at most `maxId`. -/
theorem le_maxId (rows : List Record) (r : Record) (h : r ∈ rows) : r.id ≤ maxId rows := by
  induction rows with
  | nil => cases h
  | cons x rest ih =>
    simp only [maxId]
    rcases List.mem_cons.mp h with rfl | hmem
    · exact le_max_left _ _
    · exact le_trans (ih hmem) (le_max_right _ _)

/-- The id handed out next is above every id of the table. -/
theorem lt_nextId (db : Database) (r : Record) (h : r ∈ db.rows) : r.id < db.nextId := by
  have h1 := le_maxId db.rows r h
  have h2 := le_max_left (maxId db.rows) db.seq
  unfold Database.nextId
  omega

/-- The view after `select()` is in sync when the connection is open. -/
theorem inSync_select (e : SqlEngine) (m : ConfigurationModel) (hopen : m.db.isOpen = true) :
    (ConfigurationModel.select e m).2.InSync e ∧ (ConfigurationModel.select e m).2.db = m.db ∧
      (ConfigurationModel.select e m).2.filter = m.filter := by
  unfold ConfigurationModel.select ConfigurationModel.InSync Database.selectRows
  simp only [hopen, Bool.not_true, Bool.false_eq_true, if_false]
  cases h : m.db.matching e m.filter <;> simp [h]

/-- A successful insertion appends the new record to the table, keeps the keys
unique and leaves the view in sync. -/
theorem addConfigurationFromJson_invariant (e : SqlEngine) (m m2 : ConfigurationModel)
    (type : String) (version : Int) (name jsonData : String)
    (hok : m.addConfigurationFromJson e type version name jsonData = (true, m2)) :
    m2.db.rows = m.db.rows ++ [m.db.newRecord type version name jsonData] ∧
      (m.db.KeysUnique → m2.db.KeysUnique) ∧ m2.InSync e := by
  unfold ConfigurationModel.addConfigurationFromJson ConfigurationModel.insertRecord
    Database.insertRow at hok
  by_cases hc : (m.db.isOpen && decide (m.db.nextId ≤ 9223372036854775807)) = true
  · simp only [hc, if_true, ConfigurationModel.submitAll, Bool.not_true, Bool.false_eq_true,
      if_false, Prod.mk.injEq, true_and] at hok
    have hopen : m.db.isOpen = true := by
      simp only [Bool.and_eq_true] at hc
      exact hc.1
    obtain ⟨h1, h2, _⟩ := inSync_select e
      { db := { rows := m.db.rows ++ [m.db.newRecord type version name jsonData],
                seq := m.db.nextId, isOpen := m.db.isOpen, stamp := m.db.stamp },
        filter := m.filter, rows := m.rows } hopen
    rw [hok] at h1 h2
    have hrows : m2.db.rows = m.db.rows ++ [m.db.newRecord type version name jsonData] := by
      rw [h2]
    refine ⟨hrows, ?_, h1⟩
    intro hkeys
    unfold Database.KeysUnique at hkeys ⊢
    rw [hrows, List.map_append, List.nodup_append]
    refine ⟨hkeys, by simp, ?_⟩
    intro a ha hb
    simp only [List.map_cons, List.map_nil, List.mem_singleton] at hb
    obtain ⟨r, hr, rfl⟩ := List.mem_map.mp ha
    have := lt_nextId m.db r hr
    simp only [Database.newRecord] at hb
    omega
  · simp only [hc, if_false] at hok
    simp at hok

/-- The two outcomes of `removeRow` on a row of the view. -/
theorem removeRow_cases (m : ConfigurationModel) (row : Int) (r : Record)
    (hrow : 0 ≤ row) (hr : m.rows[row.toNat]? = some r) :
    (m.db.isOpen = false ∧ m.removeRow row = none) ∨
    (m.db.isOpen = true ∧ ∃ m1, m.removeRow row = some m1 ∧
      m1.db = { m.db with rows := m.db.rows.filter (fun x => decide (x.id ≠ r.id)) } ∧
      m1.filter = m.filter) := by
  unfold ConfigurationModel.removeRow Database.deleteRow
  have h0 : ¬ row < 0 := by omega
  simp only [h0, if_false, hr]
  cases hopen : m.db.isOpen with
  | false => left; simp
  | true => right; simp

/-- A successful removal deletes the record shown at the row from the table,
keeps the keys unique and leaves the view in sync. -/
theorem removeConfiguration_invariant (e : SqlEngine) (m m2 : ConfigurationModel) (row : Int)
    (hok : m.removeConfiguration e row = (true, m2)) :
    (∃ r, m.rows[row.toNat]? = some r ∧
        m2.db.rows = m.db.rows.filter (fun x => decide (x.id ≠ r.id))) ∧
      (m.db.KeysUnique → m2.db.KeysUnique) ∧ m2.InSync e := by
  unfold ConfigurationModel.removeConfiguration at hok
  by_cases hguard : row < 0 ∨ row ≥ m.rowCount
  · simp [hguard] at hok
  · rw [if_neg hguard] at hok
    have hlt : row.toNat < m.rows.length := by
      unfold ConfigurationModel.rowCount at hguard
      omega
    have hr : m.rows[row.toNat]? = some m.rows[row.toNat] := List.getElem?_eq_getElem hlt
    rcases removeRow_cases m row _ (by omega) hr with ⟨_, hnone⟩ | ⟨hopen, m1, hsome, hdb, _⟩
    · rw [hnone] at hok
      simp at hok
    · rw [hsome] at hok
      simp only [ConfigurationModel.submitAll, Bool.not_true, Bool.false_eq_true, if_false,
        Prod.mk.injEq, true_and] at hok
      have hopen1 : m1.db.isOpen = true := by rw [hdb]; exact hopen
      obtain ⟨h1, h2, _⟩ := inSync_select e m1 hopen1
      rw [hok] at h1 h2
      have hrows : m2.db.rows =
          m.db.rows.filter (fun x => decide (x.id ≠ (m.rows[row.toNat]).id)) := by
        rw [h2, hdb]
      refine ⟨⟨_, hr, hrows⟩, ?_, h1⟩
      intro hkeys
      unfold Database.KeysUnique at hkeys ⊢
      rw [hrows]
      exact List.Nodup.sublist (List.Sublist.map _ (List.filter_sublist _)) hkeys

/-! ## Claims on the record store -/

/-- An element that fails the test survives `dropWhile`. -/
theorem mem_dropWhile_of_false (p : Char → Bool) (l : List Char) (c : Char)
    (hc : c ∈ l) (hp : p c = false) : c ∈ l.dropWhile p := by
  induction l with
  | nil => cases hc
  | cons x rest ih =>
    by_cases hx : p x = true
    · rw [List.dropWhile_cons_of_pos hx]
      rcases List.mem_cons.mp hc with rfl | hmem
      · rw [hp] at hx; cases hx
      · exact ih hmem
    · rw [List.dropWhile_cons_of_neg hx]
      exact hc

/-- The first element left by `dropWhile` fails the test. -/
theorem head_dropWhile_false (p : Char → Bool) (l : List Char) (c : Char) (rest : List Char)
    (h : l.dropWhile p = c :: rest) : p c = false := by
  induction l with
  | nil => cases h
  | cons x xs ih =>
    by_cases hx : p x = true
    · rw [List.dropWhile_cons_of_pos hx] at h
      exact ih h
    · rw [List.dropWhile_cons_of_neg hx] at h
      cases h
      simpa using hx

/-- A non-empty result of `trimmed` holds a character that is not whitespace. -/
theorem trimmed_not_blank (s : String) (h : trimmed s ≠ "") :
    ∃ c ∈ (trimmed s).data, isSpace c = false := by
  unfold trimmed at h ⊢
  cases hd : s.data.dropWhile isSpace with
  | nil => simp [hd] at h
  | cons c rest =>
    have hc : isSpace c = false := head_dropWhile_false isSpace s.data c rest hd
    refine ⟨c, ?_, hc⟩
    show c ∈ ((c :: rest).reverse.dropWhile isSpace).reverse
    rw [List.mem_reverse]
    exact mem_dropWhile_of_false isSpace _ c (by simp) hc

/-- The loop of `distinctTypes` only adds strings that are not empty and not blank. -/
theorem collectTypes_not_blank (values : List String) :
    ∀ result : List String,
      (∀ t ∈ result, t ≠ "" ∧ ∃ c ∈ t.data, isSpace c = false) →
      ∀ t ∈ collectTypes result values, t ≠ "" ∧ ∃ c ∈ t.data, isSpace c = false := by
  induction values with
  | nil => intro result h; simpa [collectTypes] using h
  | cons v rest ih =>
    intro result h
    simp only [collectTypes]
    split
    · rename_i hne
      apply ih
      intro t ht
      rcases List.mem_append.mp ht with hmem | hmem
      · exact h t hmem
      · rw [List.mem_singleton] at hmem
        subst hmem
        exact ⟨hne, trimmed_not_blank v hne⟩
    · exact ih result h

/-- C7 fails on types that differ only in surrounding whitespace: after inserting a
record of type `sensor` and one of type `sensor ` into the empty store,
`distinctTypes` returns `sensor` twice. The other half of the claim holds on
every store: no returned string is empty or made of whitespace only. -/
theorem C7_distinctTypes_repeats_trimmed_type :
    (ConfigurationModel.addConfigurationFromJson engineVersion2
        (ConfigurationModel.addConfigurationFromJson engineVersion2 emptyStore
          "sensor" 1 "A" "1").2 "sensor " 1 "B" "2").2.distinctTypes = ["sensor", "sensor"] ∧
      ∀ (m : ConfigurationModel), ∀ t ∈ m.distinctTypes,
        t ≠ "" ∧ ∃ c ∈ t.data, isSpace c = false := by
  constructor
  · decide
  · intro m t ht
    unfold ConfigurationModel.distinctTypes at ht
    cases hq : m.db.selectDistinctType with
    | none => simp [hq] at ht
    | some values =>
      simp only [hq] at ht
      exact collectTypes_not_blank values [] (by simp) t ht

/-- C8: for a row that is negative or not below `rowCount()`,
`updateConfigurationFromJson`, `updateConfiguration` and `removeConfiguration`
return `false` and leave the whole state (database, filter, view) as it was. -/
theorem C8_invalid_row_rejected (e : SqlEngine) (m : ConfigurationModel) (row : Int)
    (jsonData name : String) (param : Int) (hrow : row < 0 ∨ row ≥ m.rowCount) :
    m.updateConfigurationFromJson e row jsonData = (false, m) ∧
      m.updateConfiguration e row name param = (false, m) ∧
      m.removeConfiguration e row = (false, m) := by
  simp only [ConfigurationModel.updateConfigurationFromJson,
    ConfigurationModel.updateConfiguration, ConfigurationModel.removeConfiguration, hrow,
    if_true, and_self]

/-- Witness of C8: row `2` of a store with two rows, and row `-1`, are rejected. -/
theorem C8_invalid_row_rejected_witness :
    (storeTwoRecords.updateConfigurationFromJson engineVersion2 2 "1" = (false, storeTwoRecords) ∧
      storeTwoRecords.updateConfiguration engineVersion2 2 "n" 7 = (false, storeTwoRecords) ∧
      storeTwoRecords.removeConfiguration engineVersion2 2 = (false, storeTwoRecords)) ∧
    (storeTwoRecords.updateConfigurationFromJson engineVersion2 (-1) "1" = (false, storeTwoRecords) ∧
      storeTwoRecords.updateConfiguration engineVersion2 (-1) "n" 7 = (false, storeTwoRecords) ∧
      storeTwoRecords.removeConfiguration engineVersion2 (-1) = (false, storeTwoRecords)) :=
  ⟨C8_invalid_row_rejected engineVersion2 storeTwoRecords 2 "1" "n" 7 (Or.inr (by decide)),
    C8_invalid_row_rejected engineVersion2 storeTwoRecords (-1) "1" "n" 7 (Or.inl (by decide))⟩

/-- The view `select()` leaves when the connection is open and the filter is understood. -/
theorem select_of_matching (e : SqlEngine) (m : ConfigurationModel) (rs : List Record)
    (hopen : m.db.isOpen = true) (hm : m.db.matching e m.filter = some rs) :
    (ConfigurationModel.select e m).2 = { m with rows := rs } := by
  simp only [ConfigurationModel.select, Database.selectRows, hopen, Bool.not_true,
    Bool.false_eq_true, if_false, hm]

end Nexus
